import Mathlib

/-!
# Verification of the Aeonn repository monitor

Shallow embedding of the `RepoMonitor` class (files `h.py` and `k.py` of the
repository; the two files agree on all logic modelled here except where noted).
Python dictionaries are modelled as association lists, HTTP transport as
oracle parameters (`none` = the underlying HTTP library raised an exception,
`some r` = a response `r` was received), and raised Python exceptions as the
`Except.error` constructor.  Wall-clock time is modelled as integer seconds.
-/

namespace Aeonn

/-! ## Association lists standing in for Python dicts -/

/-- Python dict lookup `d.get(k)` / `d[k]`, on an association list. -/
def alookup (k : String) : List (String × α) → Option α
  | [] => none
  | p :: rest => if p.1 = k then some p.2 else alookup k rest

/-- Python dict assignment `d[k] = v`: replace the binding in place if the key
is present, otherwise append it. -/
def ainsert (k : String) (v : α) : List (String × α) → List (String × α)
  | [] => [(k, v)]
  | p :: rest => if p.1 = k then (k, v) :: rest else p :: ainsert k v rest

/-- The keys of an association list are pairwise distinct (true of every list
that models a Python dict). -/
def NodupKeys (l : List (String × α)) : Prop := (l.map Prod.fst).Nodup

instance (l : List (String × α)) : Decidable (NodupKeys l) := by
  unfold NodupKeys; infer_instance

theorem alookup_ainsert_self (k : String) (v : α) (l : List (String × α)) :
    alookup k (ainsert k v l) = some v := by
  induction l with
  | nil => simp [ainsert, alookup]
  | cons p rest ih =>
      by_cases h : p.1 = k
      · simp [ainsert, h, alookup]
      · simp [ainsert, h, alookup, ih]

theorem alookup_ainsert_ne (k k' : String) (v : α) (l : List (String × α))
    (h : k ≠ k') : alookup k' (ainsert k v l) = alookup k' l := by
  induction l with
  | nil => simp [ainsert, alookup, h]
  | cons p rest ih =>
      by_cases hp : p.1 = k
      · simp [ainsert, hp, alookup, h]
      · by_cases hq : p.1 = k'
        · simp [ainsert, hp, alookup, hq, Ne.symm h]
        · simp [ainsert, hp, alookup, hq, ih]

/-! ## Branch state tracker (`check_for_changes`, `capture_initial_state`) -/

/-- A branch's file listing: repository-relative path to blob hash, as returned
by `get_branch_file_list` (h.py line 121 / k.py line 120). -/
abbrev FileMap := List (String × String)

/-- A change map: path to one of the three change-kind strings produced by
`check_for_changes`. -/
abbrev ChangeMap := List (String × String)

/-- The two per-branch dictionaries held by the monitor.  The values of
`initial_branch_files` are `Option FileMap` because `capture_initial_state`
stores the raw result of `get_branch_file_list`, which can be `None`
(h.py line 127). -/
structure TrackerState where
  initial_branch_files : List (String × Option FileMap)
  branch_files : List (String × FileMap)
deriving Repr, DecidableEq

/-- Body of the first loop of `check_for_changes` (h.py lines 138-140): an
entry of the fresh listing is recorded as new when its path is absent from the
baseline, as modified when the stored hash differs, and skipped otherwise. -/
def newModFn (last_files : FileMap) (pv : String × String) : Option (String × String) :=
  match alookup pv.1 last_files with
  | none => some (pv.1, "New file added.")
  | some old => if old ≠ pv.2 then some (pv.1, "File modified.") else none

/-- First loop of `check_for_changes` over the items of the fresh listing.
Dict insertion of pairwise-fresh keys becomes list collection. -/
def newModPart (last_files current_files : FileMap) : ChangeMap :=
  current_files.filterMap (newModFn last_files)

/-- Body of the second loop of `check_for_changes` (h.py lines 142-144): a
baseline path absent from the fresh listing is recorded as deleted. -/
def delFn (current_files : FileMap) (pv : String × String) : Option (String × String) :=
  if alookup pv.1 current_files = none then some (pv.1, "File deleted.") else none

/-- Second loop of `check_for_changes` over the keys of the stored baseline. -/
def deletedPart (last_files current_files : FileMap) : ChangeMap :=
  last_files.filterMap (delFn current_files)

/-- The two loops of `check_for_changes` (h.py lines 135-144) in sequence; the
keys contributed by the two loops are disjoint, so appending the two
collections models the successive dict insertions. -/
def compute_changes (last_files current_files : FileMap) : ChangeMap :=
  newModPart last_files current_files ++ deletedPart last_files current_files

/-- `check_for_changes` (h.py lines 130-147), with the result of the
`get_branch_file_list` HTTP fetch passed in as `fetched`.  Returns the change
map and the updated monitor state. -/
def check_for_changes (fetched : Option FileMap) (branch : String)
    (st : TrackerState) : ChangeMap × TrackerState :=
  match fetched with
  | none => ([], st)
  | some current_files =>
      let last_files := (alookup branch st.branch_files).getD []
      (compute_changes last_files current_files,
       { st with branch_files := ainsert branch current_files st.branch_files })

/-- The loop body of `capture_initial_state` (h.py lines 126-128): store the
raw fetch result as the initial map, then copy it into the baseline.  When the
fetch returned `None`, the `.copy()` call raises `AttributeError`
(`Except.error`), carrying the mutations already performed. -/
def captureLoop (fetch : String → Option FileMap) :
    List String → TrackerState → Except TrackerState TrackerState
  | [], tr => Except.ok tr
  | b :: rest, tr =>
      let tr1 : TrackerState :=
        { tr with initial_branch_files := ainsert b (fetch b) tr.initial_branch_files }
      match fetch b with
      | none => Except.error tr1
      | some fm =>
          captureLoop fetch rest
            { tr1 with branch_files := ainsert b fm tr1.branch_files }

/-- `capture_initial_state` (h.py lines 123-128).  `branches` is the result of
the `get_repo_branches` call; `if branches:` skips both `None` and the empty
list. -/
def capture_initial_state (branches : Option (List String))
    (fetch : String → Option FileMap) (tr : TrackerState) :
    Except TrackerState TrackerState :=
  match branches with
  | none => Except.ok tr
  | some bs => if bs.isEmpty then Except.ok tr else captureLoop fetch bs tr

/-- Modelled from the spec: the per-path classification of §4.5 — a path
present now but not before is `new`, present in both with a different hash is
`modified`, present before but not now is `deleted`. -/
def spec_classify (last_files current_files : FileMap) (p : String) : Option String :=
  match alookup p current_files, alookup p last_files with
  | some _, none => some "New file added."
  | some sha, some old => if old = sha then none else some "File modified."
  | none, some _ => some "File deleted."
  | none, none => none

/-! ## Lookup characterization of the diff computation -/

theorem alookup_eq_none_of_not_mem_keys {p : String} {l : List (String × α)}
    (h : p ∉ l.map Prod.fst) : alookup p l = none := by
  induction l with
  | nil => rfl
  | cons q rest ih =>
      simp only [List.map_cons, List.mem_cons] at h
      push_neg at h
      have hq : ¬q.1 = p := fun hh => h.1 hh.symm
      simp [alookup, hq, ih h.2]

theorem newModPart_cons (last : FileMap) (q : String × String) (rest : FileMap) :
    newModPart last (q :: rest) =
      match newModFn last q with
      | none => newModPart last rest
      | some c => c :: newModPart last rest := by
  rw [newModPart, List.filterMap_cons]
  rcases newModFn last q with _ | c <;> rfl

theorem deletedPart_cons (cur : FileMap) (q : String × String) (rest : FileMap) :
    deletedPart (q :: rest) cur =
      match delFn cur q with
      | none => deletedPart rest cur
      | some c => c :: deletedPart rest cur := by
  rw [deletedPart, List.filterMap_cons]
  rcases delFn cur q with _ | c <;> rfl

theorem alookup_append (k : String) (l1 l2 : List (String × α)) :
    alookup k (l1 ++ l2) = (alookup k l1).or (alookup k l2) := by
  induction l1 with
  | nil => simp [alookup]
  | cons p rest ih =>
      by_cases hp : p.1 = k
      · simp [alookup, hp]
      · simp [alookup, hp, ih]

theorem alookup_newModPart_of_none {last cur : FileMap} {p : String}
    (h : alookup p cur = none) : alookup p (newModPart last cur) = none := by
  induction cur with
  | nil => rfl
  | cons q rest ih =>
      by_cases hq : q.1 = p
      · simp [alookup, hq] at h
      · have h' : alookup p rest = none := by simpa [alookup, hq] using h
        rcases hm : alookup q.1 last with _ | old
        · simp [newModPart_cons, newModFn, hm, alookup, hq, ih h']
        · by_cases ho : old = q.2
          · simp [newModPart_cons, newModFn, hm, ho, ih h']
          · simp [newModPart_cons, newModFn, hm, ho, alookup, hq, ih h']

theorem alookup_newModPart {last cur : FileMap} (hc : NodupKeys cur) (p : String) :
    alookup p (newModPart last cur) =
      match alookup p cur with
      | none => none
      | some sha =>
          match alookup p last with
          | none => some "New file added."
          | some old => if old ≠ sha then some "File modified." else none := by
  induction cur with
  | nil => rfl
  | cons q rest ih =>
      rw [NodupKeys, List.map_cons, List.nodup_cons] at hc
      obtain ⟨hkey, hrest⟩ := hc
      by_cases hq : q.1 = p
      · have hnone : alookup p rest = none :=
          alookup_eq_none_of_not_mem_keys (by rw [← hq]; exact hkey)
        rcases hm : alookup q.1 last with _ | old
        · simp [newModPart_cons, newModFn, hm, alookup, hq, hq ▸ hm]
        · by_cases ho : old = q.2
          · simp [newModPart_cons, newModFn, hm, ho, alookup, hq,
              hq ▸ hm, alookup_newModPart_of_none hnone]
          · simp [newModPart_cons, newModFn, hm, ho, alookup, hq, hq ▸ hm]
      · have ihr := ih hrest
        rcases hm : alookup q.1 last with _ | old
        · simpa [newModPart_cons, newModFn, hm, alookup, hq] using ihr
        · by_cases ho : old = q.2
          · simpa [newModPart_cons, newModFn, hm, ho, alookup, hq] using ihr
          · simpa [newModPart_cons, newModFn, hm, ho, alookup, hq] using ihr

theorem alookup_deletedPart_of_none {last cur : FileMap} {p : String}
    (h : alookup p last = none) : alookup p (deletedPart last cur) = none := by
  induction last with
  | nil => rfl
  | cons q rest ih =>
      by_cases hq : q.1 = p
      · simp [alookup, hq] at h
      · have h' : alookup p rest = none := by simpa [alookup, hq] using h
        rcases hm : alookup q.1 cur with _ | sha
        · simp [deletedPart_cons, delFn, hm, alookup, hq, ih h']
        · simp [deletedPart_cons, delFn, hm, ih h']

theorem alookup_deletedPart {last cur : FileMap} (hl : NodupKeys last) (p : String) :
    alookup p (deletedPart last cur) =
      match alookup p last with
      | none => none
      | some _ =>
          match alookup p cur with
          | none => some "File deleted."
          | some _ => none := by
  induction last with
  | nil => rfl
  | cons q rest ih =>
      rw [NodupKeys, List.map_cons, List.nodup_cons] at hl
      obtain ⟨hkey, hrest⟩ := hl
      by_cases hq : q.1 = p
      · have hnone : alookup p rest = none :=
          alookup_eq_none_of_not_mem_keys (by rw [← hq]; exact hkey)
        rcases hm : alookup q.1 cur with _ | sha
        · simp [deletedPart_cons, delFn, hm, alookup, hq, hq ▸ hm]
        · simp [deletedPart_cons, delFn, hm, alookup, hq, hq ▸ hm,
            alookup_deletedPart_of_none hnone]
      · have ihr := ih hrest
        rcases hm : alookup q.1 cur with _ | sha
        · simpa [deletedPart_cons, delFn, hm, alookup, hq] using ihr
        · simpa [deletedPart_cons, delFn, hm, alookup, hq] using ihr

theorem alookup_compute_changes {last cur : FileMap}
    (hc : NodupKeys cur) (hl : NodupKeys last) (p : String) :
    alookup p (compute_changes last cur) = spec_classify last cur p := by
  rw [compute_changes, alookup_append, alookup_newModPart hc p, alookup_deletedPart hl p,
    spec_classify]
  rcases alookup p cur with _ | sha <;> rcases alookup p last with _ | old
  · rfl
  · rfl
  · rfl
  · by_cases ho : old = sha <;> simp [ho]

/-! ## Raised-exception accessors for `capture_initial_state` -/

/-- Whether a tracker operation raised a Python exception. -/
def isRaise : Except TrackerState TrackerState → Bool
  | Except.error _ => true
  | Except.ok _ => false

/-- The tracker state at the moment an exception was raised (Python mutations
performed before the raise are kept); `d` is returned on the no-raise case. -/
def raisedState (e : Except TrackerState TrackerState) (d : TrackerState) : TrackerState :=
  match e with
  | Except.error t => t
  | Except.ok _ => d

theorem captureLoop_raises (fetch : String → Option FileMap) (pre : List String)
    (b : String) (rest : List String) :
    ∀ tr : TrackerState,
      (∀ x ∈ pre, (fetch x).isSome = true) →
      fetch b = none → b ∉ pre →
      alookup b tr.branch_files = none →
      ∃ tr1, captureLoop fetch (pre ++ b :: rest) tr = Except.error tr1 ∧
        alookup b tr1.initial_branch_files = some none ∧
        alookup b tr1.branch_files = none ∧
        (∀ x, x ∉ pre → x ≠ b →
          alookup x tr1.branch_files = alookup x tr.branch_files ∧
          alookup x tr1.initial_branch_files = alookup x tr.initial_branch_files) := by
  induction pre with
  | nil =>
      intro tr _ hb _ hbase
      refine ⟨{ tr with initial_branch_files := ainsert b none tr.initial_branch_files },
        ?_, ?_, hbase, ?_⟩
      · simp [captureLoop, hb]
      · simpa using alookup_ainsert_self b (none : Option FileMap) tr.initial_branch_files
      · intro x _ hx
        exact ⟨rfl, alookup_ainsert_ne b x none tr.initial_branch_files fun hh => hx hh.symm⟩
  | cons a pre' ih =>
      intro tr hpre hb hnb hbase
      have ha : (fetch a).isSome = true := hpre a (List.mem_cons_self a pre')
      obtain ⟨fm, hfm⟩ := Option.isSome_iff_exists.mp ha
      have hab : b ≠ a := fun hh => hnb (hh ▸ List.mem_cons_self a pre')
      have hstep : captureLoop fetch ((a :: pre') ++ b :: rest) tr =
          captureLoop fetch (pre' ++ b :: rest)
            { tr with
              initial_branch_files := ainsert a (fetch a) tr.initial_branch_files,
              branch_files := ainsert a fm tr.branch_files } := by
        simp [captureLoop, hfm]
      have hbase2 : alookup b (ainsert a fm tr.branch_files) = none := by
        rw [alookup_ainsert_ne a b fm tr.branch_files (fun hh => hab hh.symm)]
        exact hbase
      obtain ⟨tr1, heq, h1, h2, h3⟩ := ih
        { tr with
          initial_branch_files := ainsert a (fetch a) tr.initial_branch_files,
          branch_files := ainsert a fm tr.branch_files }
        (fun x hx => hpre x (List.mem_cons_of_mem a hx)) hb
        (fun hx => hnb (List.mem_cons_of_mem a hx)) hbase2
      refine ⟨tr1, hstep.trans heq, h1, h2, ?_⟩
      intro x hx hxb
      have hxa : x ≠ a := fun hh => hx (hh ▸ List.mem_cons_self a pre')
      have hx' : x ∉ pre' := fun hh => hx (List.mem_cons_of_mem a hh)
      obtain ⟨g1, g2⟩ := h3 x hx' hxb
      constructor
      · rw [g1]
        exact alookup_ainsert_ne a x fm tr.branch_files fun hh => hxa hh.symm
      · rw [g2]
        exact alookup_ainsert_ne a x (fetch a) tr.initial_branch_files fun hh => hxa hh.symm

/-! ## Claim theorems: branch state tracker -/

/-- C1: for a branch whose listing fetch succeeds, `check_for_changes`
classifies each path of the fresh listing that is absent from the stored
baseline as new, each path present in both with a different hash as modified,
and each baseline path absent from the fresh listing as deleted; it then
unconditionally replaces the stored baseline for that branch with the freshly
fetched map (leaving other branches' baselines alone) and returns the change
map. -/
theorem check_for_changes_classifies (branch : String) (cur : FileMap)
    (st : TrackerState) (hc : NodupKeys cur)
    (hl : NodupKeys ((alookup branch st.branch_files).getD [])) :
    (∀ p, alookup p (check_for_changes (some cur) branch st).1 =
        spec_classify ((alookup branch st.branch_files).getD []) cur p) ∧
    alookup branch (check_for_changes (some cur) branch st).2.branch_files = some cur ∧
    (∀ b, b ≠ branch →
      alookup b (check_for_changes (some cur) branch st).2.branch_files =
        alookup b st.branch_files) := by
  refine ⟨fun p => alookup_compute_changes hc hl p, ?_, fun b hb => ?_⟩
  · exact alookup_ainsert_self branch cur st.branch_files
  · exact alookup_ainsert_ne branch b cur st.branch_files fun hh => hb hh.symm

theorem check_for_changes_classifies_witness :
    alookup "a.txt" (check_for_changes (some [("a.txt", "h1x"), ("c.txt", "h3")]) "main"
      ⟨[], [("main", [("a.txt", "h1"), ("b.txt", "h2")])]⟩).1 = some "File modified." ∧
    alookup "b.txt" (check_for_changes (some [("a.txt", "h1x"), ("c.txt", "h3")]) "main"
      ⟨[], [("main", [("a.txt", "h1"), ("b.txt", "h2")])]⟩).1 = some "File deleted." ∧
    alookup "c.txt" (check_for_changes (some [("a.txt", "h1x"), ("c.txt", "h3")]) "main"
      ⟨[], [("main", [("a.txt", "h1"), ("b.txt", "h2")])]⟩).1 = some "New file added." ∧
    alookup "main" (check_for_changes (some [("a.txt", "h1x"), ("c.txt", "h3")]) "main"
      ⟨[], [("main", [("a.txt", "h1"), ("b.txt", "h2")])]⟩).2.branch_files =
      some [("a.txt", "h1x"), ("c.txt", "h3")] := by
  have h := check_for_changes_classifies "main" [("a.txt", "h1x"), ("c.txt", "h3")]
    ⟨[], [("main", [("a.txt", "h1"), ("b.txt", "h2")])]⟩ (by decide) (by decide)
  exact ⟨(h.1 "a.txt").trans (by decide), (h.1 "b.txt").trans (by decide),
    (h.1 "c.txt").trans (by decide), h.2.1⟩

/-- C2: when the listing fetch inside `check_for_changes` fails (returns
`None`), the call returns an empty change map and the whole tracker state —
in particular the stored baseline for that branch — is exactly what it was
before the call. -/
theorem check_for_changes_fetch_failure (branch : String) (st : TrackerState) :
    check_for_changes none branch st = ([], st) := rfl

/-- C10: if, inside `capture_initial_state`, some branch's file-list fetch
returns `None`, the loop stores that `None` as the branch's initial map and the
subsequent `.copy()` raises, leaving the branch's current baseline absent (when
it had none before) and every remaining branch untouched — the operation is
not total under fetch failure. -/
theorem capture_initial_state_raises (pre : List String) (b : String)
    (rest : List String) (fetch : String → Option FileMap) (tr : TrackerState)
    (hpre : ∀ x ∈ pre, (fetch x).isSome = true)
    (hb : fetch b = none) (hnb : b ∉ pre)
    (hbase : alookup b tr.branch_files = none) :
    isRaise (capture_initial_state (some (pre ++ b :: rest)) fetch tr) = true ∧
    alookup b (raisedState (capture_initial_state (some (pre ++ b :: rest)) fetch tr)
        tr).initial_branch_files = some none ∧
    alookup b (raisedState (capture_initial_state (some (pre ++ b :: rest)) fetch tr)
        tr).branch_files = none ∧
    (∀ x, x ∉ pre → x ≠ b →
      alookup x (raisedState (capture_initial_state (some (pre ++ b :: rest)) fetch tr)
          tr).branch_files = alookup x tr.branch_files) := by
  obtain ⟨tr1, heq, h1, h2, h3⟩ := captureLoop_raises fetch pre b rest tr hpre hb hnb hbase
  have hcap : capture_initial_state (some (pre ++ b :: rest)) fetch tr =
      Except.error tr1 := by
    have hne : (pre ++ b :: rest).isEmpty = false := by cases pre <;> rfl
    rw [capture_initial_state, hne]
    simpa using heq
  rw [hcap]
  exact ⟨rfl, h1, h2, fun x hx hxb => (h3 x hx hxb).1⟩

theorem capture_initial_state_raises_witness :
    ((fun s => if s = "dev" then some [("f", "h")] else none) "dev").isSome = true ∧
    isRaise (capture_initial_state (some (["dev"] ++ "main" :: ["feat"]))
      (fun s => if s = "dev" then some [("f", "h")] else none) ⟨[], []⟩) = true ∧
    alookup "main" (raisedState (capture_initial_state (some (["dev"] ++ "main" :: ["feat"]))
      (fun s => if s = "dev" then some [("f", "h")] else none) ⟨[], []⟩)
      ⟨[], []⟩).initial_branch_files = some none ∧
    alookup "main" (raisedState (capture_initial_state (some (["dev"] ++ "main" :: ["feat"]))
      (fun s => if s = "dev" then some [("f", "h")] else none) ⟨[], []⟩)
      ⟨[], []⟩).branch_files = none ∧
    alookup "feat" (raisedState (capture_initial_state (some (["dev"] ++ "main" :: ["feat"]))
      (fun s => if s = "dev" then some [("f", "h")] else none) ⟨[], []⟩)
      ⟨[], []⟩).branch_files = none := by
  have h := capture_initial_state_raises ["dev"] "main" ["feat"]
    (fun s => if s = "dev" then some [("f", "h")] else none) ⟨[], []⟩
    (by intro x hx; fin_cases hx; decide) (by decide) (by decide) (by decide)
  exact ⟨by decide, h.1, h.2.1, h.2.2.1,
    (h.2.2.2 "feat" (by decide) (by decide)).trans (by decide)⟩

/-! ## Telegram notifier (`send_telegram_message`, `send_telegram_document`)

The HTTP transport outcome is an oracle: `none` means the HTTP library raised
(network fault), `some (code, body)` means a response was received.  A raised
exception surfaces as `Except.error`; the happy path returns the list of error
log lines emitted. -/

/-- `send_telegram_message` (h.py lines 45-50): POST, then log on a non-200
response.  There is no exception handler, so a transport fault propagates. -/
def send_telegram_message (resp : Option (Nat × String)) : Except Unit (List String) :=
  match resp with
  | none => Except.error ()
  | some r =>
      Except.ok (if r.1 ≠ 200 then
        ["Failed to send message: " ++ toString r.1 ++ ", " ++ r.2] else [])

/-- `send_telegram_document` (h.py lines 52-59 / k.py lines 51-58): `open`
the local file (raising `FileNotFoundError` when it is absent, modelled by
`file = none`), POST it, then log on a non-200 response.  No exception
handler. -/
def send_telegram_document (file : Option (List Nat)) (resp : Option (Nat × String)) :
    Except Unit (List String) :=
  match file with
  | none => Except.error ()
  | some _ =>
      match resp with
      | none => Except.error ()
      | some r =>
          Except.ok (if r.1 ≠ 200 then
            ["Failed to send document: " ++ toString r.1 ++ ", " ++ r.2] else [])

/-! ## GitHub reader (`get_repo_branches`) -/

/-- `get_repo_branches` (h.py line 83).  The conditional expression evaluates
`get_github_api_response` twice: `r1` is the result of the call in the
condition (evaluated first), `r2` the result of the call iterated by the list
comprehension.  A `None` (failed call, already logged) or empty list condition
yields `None`; otherwise the comprehension iterates `r2`, and iterating `None`
raises `TypeError` (`Except.error`).  Branch objects are modelled by their
`name` field. -/
def get_repo_branches (r1 r2 : Option (List String)) :
    Except Unit (Option (List String)) :=
  match r1 with
  | none => Except.ok none
  | some l =>
      if l.isEmpty then Except.ok none
      else
        match r2 with
        | none => Except.error ()
        | some l2 => Except.ok (some l2)

/-! ## Claim theorems: Telegram notifier and GitHub reader -/

/-- C6 counterexample: `send_telegram_message` under a transport fault (the
HTTP library raising instead of returning a response) propagates the exception
to the caller, contradicting the claim that no input and no transport outcome
makes the operation throw. -/
theorem send_telegram_message_fault_raises :
    send_telegram_message none = Except.error () := rfl

/-- C6 amended: when an HTTP response is received, `send_telegram_message` and
`send_telegram_document` log non-200 responses and return normally; but a
transport fault (raised exception) propagates from both, as does a missing
local file from `send_telegram_document`. -/
theorem telegram_ops_amended :
    (∀ c : Nat, ∀ b : String, send_telegram_message (some (c, b)) =
      Except.ok (if c ≠ 200 then
        ["Failed to send message: " ++ toString c ++ ", " ++ b] else [])) ∧
    (∀ f : List Nat, ∀ c : Nat, ∀ b : String,
      send_telegram_document (some f) (some (c, b)) =
      Except.ok (if c ≠ 200 then
        ["Failed to send document: " ++ toString c ++ ", " ++ b] else [])) ∧
    send_telegram_message none = Except.error () ∧
    (∀ r, send_telegram_document none r = Except.error ()) ∧
    (∀ f : List Nat, send_telegram_document (some f) none = Except.error ()) :=
  ⟨fun _ _ => rfl, fun _ _ _ => rfl, rfl, fun _ => rfl, fun _ => rfl⟩

/-- C5 counterexample: when the first GET of the branches endpoint returns a
non-empty branch list and the second GET fails (`get_github_api_response`
returns `None`), `get_repo_branches` iterates `None` and raises `TypeError` —
so it can throw to the caller, contradicting the claim. -/
theorem get_repo_branches_throws :
    get_repo_branches (some ["main"]) none = Except.error () := rfl

/-- C5 amended: `get_repo_branches` evaluates the branches endpoint twice.  If
the first response is absent (after logging) or an empty list, it returns
absent; otherwise it returns the branch names of the second response, and it
raises to the caller when that second call fails. -/
theorem get_repo_branches_amended :
    (∀ r2, get_repo_branches none r2 = Except.ok none) ∧
    (∀ r2, get_repo_branches (some []) r2 = Except.ok none) ∧
    (∀ b : String, ∀ bs : List String,
      get_repo_branches (some (b :: bs)) none = Except.error ()) ∧
    (∀ b : String, ∀ bs l2 : List String,
      get_repo_branches (some (b :: bs)) (some l2) = Except.ok (some l2)) :=
  ⟨fun _ => rfl, fun _ => rfl, fun _ _ => rfl, fun _ _ _ => rfl⟩

/-! ## Timestamp rendering (`current_time_ist`, `create_commit`)

Instants are integer seconds since the Unix epoch.  Rendering a local
timestamp applies a zone offset in seconds and formats the broken-down civil
time; `Asia/Kolkata` is the fixed offset UTC+5:30 = 19800 seconds. -/

/-- Broken-down civil time. -/
structure Tm where
  year : Int
  month : Nat
  day : Nat
  hour : Nat
  minute : Nat
  second : Nat
deriving Repr, DecidableEq

/-- Gregorian calendar date from a day count relative to 1970-01-01
(days-from-civil inverted). -/
def civilFromDays (z0 : Int) : Int × Nat × Nat :=
  let z := z0 + 719468
  let era := z.fdiv 146097
  let doe := (z - era * 146097).toNat
  let yoe := (doe - doe / 1460 + doe / 36524 - doe / 146096) / 365
  let y : Int := (yoe : Int) + era * 400
  let doy := doe - (365 * yoe + yoe / 4 - yoe / 100)
  let mp := (5 * doy + 2) / 153
  let d := doy - (153 * mp + 2) / 5 + 1
  let m := if mp < 10 then mp + 3 else mp - 9
  (if m ≤ 2 then y + 1 else y, m, d)

/-- Broken-down time of an epoch instant. -/
def toTm (s : Int) : Tm :=
  let days := s.fdiv 86400
  let rem := (s - days * 86400).toNat
  let ymd := civilFromDays days
  ⟨ymd.1, ymd.2.1, ymd.2.2, rem / 3600, rem / 60 % 60, rem % 60⟩

/-- Two-digit zero padding, as `%m`/`%d`/`%H`/`%I`/`%M`/`%S` render. -/
def pad2 (n : Nat) : String :=
  if n < 10 then "0" ++ toString n else toString n

/-- Four-digit zero padding of the year, as `%Y` and `isoformat` render
(years of interest are 1 ≤ year ≤ 9999). -/
def pad4 (y : Int) : String :=
  let n := y.toNat
  if n < 10 then "000" ++ toString n
  else if n < 100 then "00" ++ toString n
  else if n < 1000 then "0" ++ toString n
  else toString n

/-- Python `datetime.isoformat()` at whole-second precision
(`YYYY-MM-DDTHH:MM:SS`). -/
def isoformat (t : Tm) : String :=
  pad4 t.year ++ "-" ++ pad2 t.month ++ "-" ++ pad2 t.day ++ "T" ++
    pad2 t.hour ++ ":" ++ pad2 t.minute ++ ":" ++ pad2 t.second

/-- The strftime pattern `'%Y-%m-%d %I:%M:%S %p'` used by `current_time_ist`
and the logger (12-hour clock with AM/PM). -/
def strftime_ist_pattern (t : Tm) : String :=
  pad4 t.year ++ "-" ++ pad2 t.month ++ "-" ++ pad2 t.day ++ " " ++
    pad2 (if t.hour % 12 = 0 then 12 else t.hour % 12) ++ ":" ++
    pad2 t.minute ++ ":" ++ pad2 t.second ++ " " ++
    (if t.hour < 12 then "AM" else "PM")

/-- `current_time_ist` (h.py lines 373-374): `datetime.now(self.ist)` in the
`Asia/Kolkata` zone rendered with `'%Y-%m-%d %I:%M:%S %p'`.  `t` is the
current instant in epoch seconds. -/
def current_time_ist (t : Int) : String :=
  strftime_ist_pattern (toTm (t + 19800))

/-- The commit message built by `create_commit` (h.py line 325):
`f"Update at {datetime.now().isoformat()}"` — the *naive host-local* time
(epoch instant `t` shifted by the host zone offset `hostOffset`), rendered by
`isoformat`, not by `current_time_ist`. -/
def create_commit_message (t hostOffset : Int) : String :=
  "Update at " ++ isoformat (toTm (t + hostOffset))

/-- The heartbeat text built by `send_status_update` (h.py lines 207-210),
which does route its timestamp through the shared `current_time_ist`
operation. -/
def status_update_message (repo_name : String) (status_str : String) (t : Int) : String :=
  "The repository '" ++ repo_name ++ "' is still " ++ status_str ++ " at " ++
    current_time_ist t ++ "."

/-! ## Claim theorems: timestamp rendering -/

/-- C7 counterexample: on a host running in UTC at the epoch instant 0, the
commit message produced by `create_commit` is not the string the shared
current-time-in-IST operation renders — `create_commit` calls
`datetime.now().isoformat()` (naive host-local time, ISO format) rather than
`current_time_ist`. -/
theorem create_commit_message_not_ist :
    create_commit_message 0 0 ≠ "Update at " ++ current_time_ist 0 := by decide

/-- C7 amended: the tree/commit publisher's commit message renders the naive
host-local time in ISO format, so it depends on the host zone offset and even
on a host pinned to the IST offset it differs from the output of the shared
`current_time_ist` operation (which uses the `%Y-%m-%d %I:%M:%S %p` pattern);
heartbeat messages, by contrast, do embed `current_time_ist`. -/
theorem create_commit_message_amended :
    (∀ t hostOffset : Int, create_commit_message t hostOffset =
      "Update at " ++ isoformat (toTm (t + hostOffset))) ∧
    create_commit_message 0 19800 ≠ "Update at " ++ current_time_ist 0 ∧
    (∀ repo status : String, ∀ t : Int, status_update_message repo status t =
      "The repository '" ++ repo ++ "' is still " ++ status ++ " at " ++
        current_time_ist t ++ ".") :=
  ⟨fun _ _ => rfl, by decide, fun _ _ _ => rfl⟩

/-! ## Repository monitor / orchestrator (`monitor`, `check_repo_status`)

The polling loop of h.py lines 149-229 (k.py is identical except that
`send_initial_zip` and the per-branch publish deliver to Telegram instead of
GitHub; the observable event structure modelled here is the same).  Telegram
and publish side effects are recorded as events; each HTTP lookup the loop
performs is an oracle field of the per-cycle input.  `send_initial_zip`'s
archive building and hand-off to the publisher are condensed into a single
`zipPublished` event (`create_all_branch_zip` always returns its output path,
so the inner `if zip_file_path:` is always taken).  Raised exceptions travel
as `Except.error` and are caught at the loop boundary. -/

/-- Observable side effects of the monitor. -/
inductive Event
  | statusAnnounce (isPublic : Bool)
  | statusLog (isPublic : Bool)
  | nowPrivateMsg
  | heartbeat (isPublic : Bool)
  | initialZipCall
  | zipPublished
  | changeMsg (branch path kind : String)
  | branchPublished (branch : String)
  | downloadFailed (branch : String)
  | errorLogged
deriving Repr, DecidableEq

/-- The orchestrator's mutable instance fields. -/
structure MonitorState where
  last_status : Bool
  last_sent_time : Nat
  initial_zip_sent : Bool
  tracker : TrackerState
deriving DecidableEq

/-- The oracle inputs consumed by one loop iteration: the visibility probe
(`none` = the HTTP GET raised), the wall-clock reading, and the results of the
GitHub calls made by `send_initial_zip`, `capture_initial_state` and
`check_for_repo_changes` respectively. -/
structure CycleInput where
  probe : Option Nat
  now : Nat
  zipBranches : Option (List String)
  capBranches : Option (List String)
  chgBranches : Option (List String)
  fileList : String → Option FileMap
  download : String → Bool

/-- `send_initial_zip` (h.py lines 198-205): fetch the branch list, build the
combined archive, hand it to the publisher and set the one-shot flag; with no
branch list (`None` or empty) nothing is published and the flag is untouched. -/
def send_initial_zip (branches : Option (List String)) (st : MonitorState) :
    List Event × MonitorState :=
  match branches with
  | none => ([Event.initialZipCall], st)
  | some bs =>
      if bs.isEmpty then ([Event.initialZipCall], st)
      else ([Event.initialZipCall, Event.zipPublished], { st with initial_zip_sent := true })

/-- `send_status_update` (h.py lines 207-210): send the "still
public/private" heartbeat and reset the cooldown timer. -/
def send_status_update (cur : Bool) (now : Nat) (st : MonitorState) :
    List Event × MonitorState :=
  ([Event.heartbeat cur], { st with last_sent_time := now })

/-- `handle_status_change` (h.py lines 188-196): on becoming public, publish
the initial archive and recapture state (whose raise aborts before
`last_status`/`last_sent_time` are written); on becoming private, send the
"now private" notice.  On the non-raising paths both fields are updated. -/
def handle_status_change (cur : Bool) (inp : CycleInput) (st : MonitorState) :
    Except (List Event × MonitorState) (List Event × MonitorState) :=
  if cur then
    let z := send_initial_zip inp.zipBranches st
    match capture_initial_state inp.capBranches inp.fileList z.2.tracker with
    | Except.error tr1 => Except.error (z.1, { z.2 with tracker := tr1 })
    | Except.ok tr1 =>
        Except.ok (z.1,
          { z.2 with tracker := tr1, last_status := cur, last_sent_time := inp.now })
  else
    Except.ok ([Event.nowPrivateMsg],
      { st with last_status := cur, last_sent_time := inp.now })

/-- The events emitted for one branch by the body of `check_for_repo_changes`
(h.py lines 216-229): nothing when the change map is empty, otherwise one
message per changed file followed by the branch archive download/publish (or
an error log when the download fails). -/
def branchChangeEvents (inp : CycleInput) (b : String) (chg : ChangeMap) : List Event :=
  if chg.isEmpty then []
  else
    (chg.map fun pc => Event.changeMsg b pc.1 pc.2) ++
      (if inp.download b then [Event.branchPublished b] else [Event.downloadFailed b])

def changesLoop (inp : CycleInput) : List String → MonitorState → List Event × MonitorState
  | [], st => ([], st)
  | b :: rest, st =>
      let c := check_for_changes (inp.fileList b) b st.tracker
      let st1 := { st with tracker := c.2 }
      let r := changesLoop inp rest st1
      (branchChangeEvents inp b c.1 ++ r.1, r.2)

/-- `check_for_repo_changes` (h.py lines 212-229). -/
def check_for_repo_changes (inp : CycleInput) (st : MonitorState) :
    List Event × MonitorState :=
  match inp.chgBranches with
  | none => ([], st)
  | some bs => if bs.isEmpty then ([], st) else changesLoop inp bs st

/-- `check_repo_status` (h.py lines 170-186), one loop iteration: probe
visibility (a raise propagates to the loop boundary; the `is None` guard can
never fire because `is_repo_public` returns a Bool), log the status, then run
the status-change / heartbeat alternative, then — when currently public — the
per-branch diff/publish pass. -/
def check_repo_status (inp : CycleInput) (st : MonitorState) :
    Except (List Event × MonitorState) (List Event × MonitorState) :=
  match inp.probe with
  | none => Except.error ([], st)
  | some code =>
      let current_status := code == 200
      let ev0 := [Event.statusLog current_status]
      let step1 :=
        if current_status ≠ st.last_status then handle_status_change current_status inp st
        else if 5 * 60 ≤ inp.now - st.last_sent_time then
          Except.ok (send_status_update current_status inp.now st)
        else Except.ok ([], st)
      match step1 with
      | Except.error e => Except.error (ev0 ++ e.1, e.2)
      | Except.ok r =>
          if current_status then
            let r2 := check_for_repo_changes inp r.2
            Except.ok (ev0 ++ r.1 ++ r2.1, r2.2)
          else Except.ok (ev0 ++ r.1, r.2)

/-- The oracle inputs consumed by the startup phase of `monitor`. -/
structure StartInput where
  probe : Option Nat
  t0 : Nat
  capBranches : Option (List String)
  fileList : String → Option FileMap
  zipBranches : Option (List String)

/-- Outcome of the startup phase of `monitor` (h.py lines 149-161): an
exception unwound out of `monitor` (`raised`), the fatal log-and-return guard
fired (`fatalLogged`), or the polling loop was entered (`entered`). -/
inductive StartResult
  | raised (ev : List Event)
  | fatalLogged (ev : List Event)
  | entered (ev : List Event) (st : MonitorState)
deriving DecidableEq

/-- The startup phase of `monitor` (h.py lines 149-161): determine the initial
status (a probe raise propagates, with nothing logged), run the dead
`last_status is None` guard, announce the status, capture initial state (a
raise here also propagates — it happens before the `try` loop), and if public
send the initial archive since the one-shot flag starts false. -/
def monitor_startup (s : StartInput) (tr0 : TrackerState) : StartResult :=
  match s.probe with
  | none => StartResult.raised []
  | some code =>
      let last_status : Option Bool := some (code == 200)
      match last_status with
      | none => StartResult.fatalLogged [Event.errorLogged]
      | some b =>
          let st0 : MonitorState := ⟨b, s.t0, false, tr0⟩
          let ev1 := [Event.statusAnnounce b]
          match capture_initial_state s.capBranches s.fileList st0.tracker with
          | Except.error _ => StartResult.raised ev1
          | Except.ok tr1 =>
              let st1 := { st0 with tracker := tr1 }
              if b && !st1.initial_zip_sent then
                let z := send_initial_zip s.zipBranches st1
                StartResult.entered (ev1 ++ z.1) z.2
              else StartResult.entered ev1 st1

/-- The unbounded `while True` loop of `monitor` (h.py lines 163-168) over a
finite trace of cycle inputs: an exception raised by an iteration is caught,
logged and the loop continues. -/
def runCycles : List CycleInput → MonitorState → List Event × MonitorState
  | [], st => ([], st)
  | inp :: rest, st =>
      match check_repo_status inp st with
      | Except.ok r =>
          let q := runCycles rest r.2
          (r.1 ++ q.1, q.2)
      | Except.error e =>
          let q := runCycles rest e.2
          (e.1 ++ [Event.errorLogged] ++ q.1, q.2)

/-- A whole `monitor` run: startup followed by the given polling cycles; the
Bool records whether the loop was entered. -/
def monitorRun (s : StartInput) (cycles : List CycleInput) (tr0 : TrackerState) :
    List Event × Bool :=
  match monitor_startup s tr0 with
  | StartResult.raised ev => (ev, false)
  | StartResult.fatalLogged ev => (ev, false)
  | StartResult.entered ev st =>
      let q := runCycles cycles st
      (ev ++ q.1, true)

/-! ## Event counting -/

/-- Executions of the combined-archive publish step `send_initial_zip`. -/
def isZipCall : Event → Bool
  | Event.initialZipCall => true
  | _ => false

/-- Heartbeat ("still public/private") notices. -/
def isHeartbeat : Event → Bool
  | Event.heartbeat _ => true
  | _ => false

/-- Status-change notifications sent to Telegram by `handle_status_change`
(the "now private" message is the only one the handler ever sends). -/
def isStatusChangeMsg : Event → Bool
  | Event.nowPrivateMsg => true
  | _ => false

def countZipCalls (ev : List Event) : Nat := (ev.filter isZipCall).length

def countHeartbeats (ev : List Event) : Nat := (ev.filter isHeartbeat).length

def countStatusChangeMsgs (ev : List Event) : Nat := (ev.filter isStatusChangeMsg).length

/-- Number of private-to-public transitions in a status sequence whose value
before the first element is `prev`. -/
def countPrivToPub : Bool → List Bool → Nat
  | _, [] => 0
  | prev, s :: rest => (if s && !prev then 1 else 0) + countPrivToPub s rest

/-- The visibility reading of a cycle (`is_repo_public`: status 200 means
public); only meaningful when the probe did not raise. -/
def statusOfCycle (i : CycleInput) : Bool :=
  match i.probe with
  | some c => c == 200
  | none => false

def statusesOf (cycles : List CycleInput) : List Bool := cycles.map statusOfCycle

/-- All file-list fetches a `capture_initial_state` call will perform succeed
(so the call cannot raise). -/
def capFetchOk (branches : Option (List String)) (fetch : String → Option FileMap) : Bool :=
  match branches with
  | none => true
  | some bs => bs.all fun b => (fetch b).isSome

def cycleCapOk (i : CycleInput) : Bool := capFetchOk i.capBranches i.fileList

def startCapOk (s : StartInput) : Bool := capFetchOk s.capBranches s.fileList

/-! ## Supporting lemmas about the orchestrator -/

theorem countZipCalls_append (a b : List Event) :
    countZipCalls (a ++ b) = countZipCalls a + countZipCalls b := by
  simp [countZipCalls, List.filter_append]

theorem countHeartbeats_append (a b : List Event) :
    countHeartbeats (a ++ b) = countHeartbeats a + countHeartbeats b := by
  simp [countHeartbeats, List.filter_append]

theorem countStatusChangeMsgs_append (a b : List Event) :
    countStatusChangeMsgs (a ++ b) = countStatusChangeMsgs a + countStatusChangeMsgs b := by
  simp [countStatusChangeMsgs, List.filter_append]

theorem countZipCalls_changeMsgs (b : String) (l : ChangeMap) :
    countZipCalls (l.map fun pc => Event.changeMsg b pc.1 pc.2) = 0 := by
  induction l with
  | nil => rfl
  | cons p rest ih => simpa [countZipCalls, isZipCall] using ih

theorem countHeartbeats_changeMsgs (b : String) (l : ChangeMap) :
    countHeartbeats (l.map fun pc => Event.changeMsg b pc.1 pc.2) = 0 := by
  induction l with
  | nil => rfl
  | cons p rest ih => simpa [countHeartbeats, isHeartbeat] using ih

theorem countStatusChangeMsgs_changeMsgs (b : String) (l : ChangeMap) :
    countStatusChangeMsgs (l.map fun pc => Event.changeMsg b pc.1 pc.2) = 0 := by
  induction l with
  | nil => rfl
  | cons p rest ih => simpa [countStatusChangeMsgs, isStatusChangeMsg] using ih

theorem branchChangeEvents_counts (inp : CycleInput) (b : String) (chg : ChangeMap) :
    countZipCalls (branchChangeEvents inp b chg) = 0 ∧
    countHeartbeats (branchChangeEvents inp b chg) = 0 ∧
    countStatusChangeMsgs (branchChangeEvents inp b chg) = 0 := by
  rw [branchChangeEvents]
  by_cases hce : chg.isEmpty
  · simp [hce, countZipCalls, countHeartbeats, countStatusChangeMsgs]
  · have hz1 : countZipCalls [Event.branchPublished b] = 0 := rfl
    have hz2 : countZipCalls [Event.downloadFailed b] = 0 := rfl
    have hh1 : countHeartbeats [Event.branchPublished b] = 0 := rfl
    have hh2 : countHeartbeats [Event.downloadFailed b] = 0 := rfl
    have hs1 : countStatusChangeMsgs [Event.branchPublished b] = 0 := rfl
    have hs2 : countStatusChangeMsgs [Event.downloadFailed b] = 0 := rfl
    by_cases hd : inp.download b <;>
      simp [hce, hd, countZipCalls_append, countHeartbeats_append,
        countStatusChangeMsgs_append, countZipCalls_changeMsgs,
        countHeartbeats_changeMsgs, countStatusChangeMsgs_changeMsgs,
        hz1, hz2, hh1, hh2, hs1, hs2]

theorem captureLoop_ok (fetch : String → Option FileMap) (bs : List String) :
    ∀ tr : TrackerState, (bs.all fun b => (fetch b).isSome) = true →
      ∃ tr', captureLoop fetch bs tr = Except.ok tr' := by
  induction bs with
  | nil => exact fun tr _ => ⟨tr, rfl⟩
  | cons a rest ih =>
      intro tr h
      rw [List.all_cons, Bool.and_eq_true] at h
      obtain ⟨fm, hfm⟩ := Option.isSome_iff_exists.mp h.1
      have hstep : captureLoop fetch (a :: rest) tr =
          captureLoop fetch rest
            { tr with
              initial_branch_files := ainsert a (fetch a) tr.initial_branch_files,
              branch_files := ainsert a fm tr.branch_files } := by
        simp [captureLoop, hfm]
      obtain ⟨tr', htr'⟩ := ih
        { tr with
          initial_branch_files := ainsert a (fetch a) tr.initial_branch_files,
          branch_files := ainsert a fm tr.branch_files } h.2
      exact ⟨tr', hstep.trans htr'⟩

theorem capture_initial_state_ok (branches : Option (List String))
    (fetch : String → Option FileMap) (tr : TrackerState)
    (h : capFetchOk branches fetch = true) :
    ∃ tr', capture_initial_state branches fetch tr = Except.ok tr' := by
  rcases branches with _ | bs
  · exact ⟨tr, rfl⟩
  · rw [capFetchOk] at h
    by_cases he : bs.isEmpty
    · exact ⟨tr, by simp [capture_initial_state, he]⟩
    · obtain ⟨tr', htr'⟩ := captureLoop_ok fetch bs tr h
      exact ⟨tr', by simp [capture_initial_state, he, htr']⟩

theorem send_initial_zip_spec (br : Option (List String)) (st : MonitorState) :
    countZipCalls (send_initial_zip br st).1 = 1 ∧
    countHeartbeats (send_initial_zip br st).1 = 0 ∧
    countStatusChangeMsgs (send_initial_zip br st).1 = 0 ∧
    (send_initial_zip br st).2.last_status = st.last_status ∧
    (send_initial_zip br st).2.last_sent_time = st.last_sent_time ∧
    (send_initial_zip br st).2.tracker = st.tracker := by
  rcases br with _ | bs
  · simp [send_initial_zip, countZipCalls, countHeartbeats, countStatusChangeMsgs,
      isZipCall, isHeartbeat, isStatusChangeMsg]
  · by_cases he : bs.isEmpty <;>
      simp [send_initial_zip, he, countZipCalls, countHeartbeats, countStatusChangeMsgs,
        isZipCall, isHeartbeat, isStatusChangeMsg]

theorem changesLoop_spec (inp : CycleInput) (bs : List String) :
    ∀ st : MonitorState,
      countZipCalls (changesLoop inp bs st).1 = 0 ∧
      countHeartbeats (changesLoop inp bs st).1 = 0 ∧
      countStatusChangeMsgs (changesLoop inp bs st).1 = 0 ∧
      (changesLoop inp bs st).2.last_status = st.last_status ∧
      (changesLoop inp bs st).2.last_sent_time = st.last_sent_time ∧
      (changesLoop inp bs st).2.initial_zip_sent = st.initial_zip_sent := by
  induction bs with
  | nil => exact fun st => ⟨rfl, rfl, rfl, rfl, rfl, rfl⟩
  | cons b rest ih =>
      intro st
      obtain ⟨i1, i2, i3, i4, i5, i6⟩ :=
        ih { st with tracker := (check_for_changes (inp.fileList b) b st.tracker).2 }
      obtain ⟨hz, hh, hs⟩ :=
        branchChangeEvents_counts inp b (check_for_changes (inp.fileList b) b st.tracker).1
      refine ⟨?_, ?_, ?_, ?_, ?_, ?_⟩
      · show countZipCalls (branchChangeEvents inp b
            (check_for_changes (inp.fileList b) b st.tracker).1 ++
          (changesLoop inp rest
            { st with tracker := (check_for_changes (inp.fileList b) b st.tracker).2 }).1) = 0
        rw [countZipCalls_append, hz, i1]
      · show countHeartbeats (branchChangeEvents inp b
            (check_for_changes (inp.fileList b) b st.tracker).1 ++
          (changesLoop inp rest
            { st with tracker := (check_for_changes (inp.fileList b) b st.tracker).2 }).1) = 0
        rw [countHeartbeats_append, hh, i2]
      · show countStatusChangeMsgs (branchChangeEvents inp b
            (check_for_changes (inp.fileList b) b st.tracker).1 ++
          (changesLoop inp rest
            { st with tracker := (check_for_changes (inp.fileList b) b st.tracker).2 }).1) = 0
        rw [countStatusChangeMsgs_append, hs, i3]
      · exact i4
      · exact i5
      · exact i6

theorem check_for_repo_changes_spec (inp : CycleInput) (st : MonitorState) :
    countZipCalls (check_for_repo_changes inp st).1 = 0 ∧
    countHeartbeats (check_for_repo_changes inp st).1 = 0 ∧
    countStatusChangeMsgs (check_for_repo_changes inp st).1 = 0 ∧
    (check_for_repo_changes inp st).2.last_status = st.last_status ∧
    (check_for_repo_changes inp st).2.last_sent_time = st.last_sent_time ∧
    (check_for_repo_changes inp st).2.initial_zip_sent = st.initial_zip_sent := by
  rcases hbr : inp.chgBranches with _ | bs
  · simp [check_for_repo_changes, hbr, countZipCalls, countHeartbeats, countStatusChangeMsgs]
  · by_cases he : bs.isEmpty
    · simp [check_for_repo_changes, hbr, he, countZipCalls, countHeartbeats,
        countStatusChangeMsgs]
    · have := changesLoop_spec inp bs st
      simpa [check_for_repo_changes, hbr, he] using this

theorem handle_to_public_ok (inp : CycleInput) (st : MonitorState)
    (hcap : cycleCapOk inp = true) :
    ∃ ev st', handle_status_change true inp st = Except.ok (ev, st') ∧
      countZipCalls ev = 1 ∧ countHeartbeats ev = 0 ∧ countStatusChangeMsgs ev = 0 ∧
      st'.last_status = true ∧ st'.last_sent_time = inp.now := by
  obtain ⟨z1, z2, z3, z4, z5, z6⟩ := send_initial_zip_spec inp.zipBranches st
  obtain ⟨tr', htr'⟩ := capture_initial_state_ok inp.capBranches inp.fileList
    (send_initial_zip inp.zipBranches st).2.tracker hcap
  refine ⟨(send_initial_zip inp.zipBranches st).1,
    { (send_initial_zip inp.zipBranches st).2 with
      tracker := tr', last_status := true, last_sent_time := inp.now },
    ?_, z1, z2, z3, rfl, rfl⟩
  simp [handle_status_change, htr']

theorem handle_to_private_eq (inp : CycleInput) (st : MonitorState) :
    handle_status_change false inp st =
      Except.ok ([Event.nowPrivateMsg],
        { st with last_status := false, last_sent_time := inp.now }) := rfl

theorem check_repo_status_ok (inp : CycleInput) (st : MonitorState) (c : Nat)
    (hp : inp.probe = some c) (hcap : cycleCapOk inp = true) :
    ∃ ev st', check_repo_status inp st = Except.ok (ev, st') ∧
      st'.last_status = (c == 200) ∧
      st'.last_sent_time =
        (if (c == 200) = st.last_status then
          (if 5 * 60 ≤ inp.now - st.last_sent_time then inp.now else st.last_sent_time)
         else inp.now) ∧
      countZipCalls ev = (if (c == 200) && !st.last_status then 1 else 0) ∧
      countHeartbeats ev =
        (if (c == 200) = st.last_status ∧ 5 * 60 ≤ inp.now - st.last_sent_time
         then 1 else 0) ∧
      countStatusChangeMsgs ev = (if st.last_status && !(c == 200) then 1 else 0) := by
  cases hcv : (c == 200) <;> cases hls : st.last_status
  · -- currently private, was private: heartbeat alternative only
    by_cases hT : 5 * 60 ≤ inp.now - st.last_sent_time
    · refine ⟨[Event.statusLog false, Event.heartbeat false],
        { st with last_sent_time := inp.now }, ?_, ?_, ?_, ?_, ?_, ?_⟩
      · simp [check_repo_status, hp, hcv, hls, hT, send_status_update]
      · simp [hls]
      · simp [hT]
      · decide
      · simp [hT]; rfl
      · decide
    · refine ⟨[Event.statusLog false], st, ?_, ?_, ?_, ?_, ?_, ?_⟩
      · simp [check_repo_status, hp, hcv, hls, hT]
      · exact hls
      · simp [hT]
      · decide
      · simp [hT]; rfl
      · decide
  · -- currently private, was public: "now private" transition
    refine ⟨[Event.statusLog false, Event.nowPrivateMsg],
      { st with last_status := false, last_sent_time := inp.now }, ?_, ?_, ?_, ?_, ?_, ?_⟩
    · simp [check_repo_status, hp, hcv, hls, handle_status_change]
    · rfl
    · simp
    · decide
    · have h0 : countHeartbeats [Event.statusLog false, Event.nowPrivateMsg] = 0 := rfl
      simp [h0]
    · decide
  · -- currently public, was private: initial publish + recapture, then diff pass
    obtain ⟨ev, st2, heq, ez, eh, es, el, et⟩ := handle_to_public_ok inp st hcap
    obtain ⟨f1, f2, f3, f4, f5, f6⟩ := check_for_repo_changes_spec inp st2
    have g1 : countZipCalls [Event.statusLog true] = 0 := rfl
    have g2 : countHeartbeats [Event.statusLog true] = 0 := rfl
    have g3 : countStatusChangeMsgs [Event.statusLog true] = 0 := rfl
    refine ⟨[Event.statusLog true] ++ ev ++ (check_for_repo_changes inp st2).1,
      (check_for_repo_changes inp st2).2, ?_, ?_, ?_, ?_, ?_, ?_⟩
    · simp [check_repo_status, hp, hcv, hls, heq]
    · rw [f4, el]
    · rw [f5, et]; simp
    · rw [countZipCalls_append, countZipCalls_append, g1, ez, f1]; decide
    · rw [countHeartbeats_append, countHeartbeats_append, g2, eh, f2]; simp
    · rw [countStatusChangeMsgs_append, countStatusChangeMsgs_append, g3, es, f3]; simp
  · -- currently public, was public: heartbeat alternative, then diff pass
    by_cases hT : 5 * 60 ≤ inp.now - st.last_sent_time
    · obtain ⟨f1, f2, f3, f4, f5, f6⟩ :=
        check_for_repo_changes_spec inp { st with last_sent_time := inp.now }
      have g1 : countZipCalls [Event.statusLog true, Event.heartbeat true] = 0 := rfl
      have g2 : countHeartbeats [Event.statusLog true, Event.heartbeat true] = 1 := rfl
      have g3 : countStatusChangeMsgs [Event.statusLog true, Event.heartbeat true] = 0 := rfl
      refine ⟨[Event.statusLog true, Event.heartbeat true] ++
          (check_for_repo_changes inp { st with last_sent_time := inp.now }).1,
        (check_for_repo_changes inp { st with last_sent_time := inp.now }).2,
        ?_, ?_, ?_, ?_, ?_, ?_⟩
      · simp [check_repo_status, hp, hcv, hls, hT, send_status_update]
      · rw [f4]; simpa using hls
      · rw [f5]; simp [hT]
      · rw [countZipCalls_append, g1, f1]; simp [hls]
      · rw [countHeartbeats_append, g2, f2]; simp [hT]
      · rw [countStatusChangeMsgs_append, g3, f3]; simp [hls]
    · obtain ⟨f1, f2, f3, f4, f5, f6⟩ := check_for_repo_changes_spec inp st
      have g1 : countZipCalls [Event.statusLog true] = 0 := rfl
      have g2 : countHeartbeats [Event.statusLog true] = 0 := rfl
      have g3 : countStatusChangeMsgs [Event.statusLog true] = 0 := rfl
      refine ⟨[Event.statusLog true] ++ (check_for_repo_changes inp st).1,
        (check_for_repo_changes inp st).2, ?_, ?_, ?_, ?_, ?_, ?_⟩
      · simp [check_repo_status, hp, hcv, hls, hT]
      · rw [f4]; exact hls
      · rw [f5]; simp [hT]
      · rw [countZipCalls_append, g1, f1]; simp [hls]
      · rw [countHeartbeats_append, g2, f2]; simp [hT]
      · rw [countStatusChangeMsgs_append, g3, f3]; simp [hls]

theorem monitor_startup_entered (s : StartInput) (c0 : Nat) (tr0 : TrackerState)
    (h0 : s.probe = some c0) (hs : startCapOk s = true) :
    ∃ ev st, monitor_startup s tr0 = StartResult.entered ev st ∧
      countZipCalls ev = (if c0 == 200 then 1 else 0) ∧
      countHeartbeats ev = 0 ∧ countStatusChangeMsgs ev = 0 ∧
      st.last_status = (c0 == 200) ∧ st.last_sent_time = s.t0 := by
  obtain ⟨tr1, htr1⟩ := capture_initial_state_ok s.capBranches s.fileList tr0 hs
  cases hcv : (c0 == 200)
  · refine ⟨[Event.statusAnnounce false], ⟨false, s.t0, false, tr1⟩, ?_, ?_, ?_, ?_, ?_, ?_⟩
    · simp [monitor_startup, h0, hcv, htr1]
    · decide
    · decide
    · decide
    · rfl
    · rfl
  · obtain ⟨z1, z2, z3, z4, z5, z6⟩ :=
      send_initial_zip_spec s.zipBranches ⟨true, s.t0, false, tr1⟩
    refine ⟨[Event.statusAnnounce true] ++
        (send_initial_zip s.zipBranches ⟨true, s.t0, false, tr1⟩).1,
      (send_initial_zip s.zipBranches ⟨true, s.t0, false, tr1⟩).2, ?_, ?_, ?_, ?_, ?_, ?_⟩
    · simp [monitor_startup, h0, hcv, htr1]
    · rw [countZipCalls_append, z1]; decide
    · rw [countHeartbeats_append, z2]; decide
    · rw [countStatusChangeMsgs_append, z3]; decide
    · rw [z4]
    · rw [z5]

theorem runCycles_zip_count (cycles : List CycleInput) :
    ∀ st : MonitorState,
      (∀ i ∈ cycles, (i.probe).isSome = true) →
      (∀ i ∈ cycles, cycleCapOk i = true) →
      countZipCalls (runCycles cycles st).1 =
        countPrivToPub st.last_status (statusesOf cycles) := by
  induction cycles with
  | nil => intro st _ _; rfl
  | cons inp rest ih =>
      intro st h1 h2
      obtain ⟨c, hc⟩ := Option.isSome_iff_exists.mp (h1 inp (List.mem_cons_self inp rest))
      obtain ⟨ev, st', heq, hl, _, hz, _, _⟩ :=
        check_repo_status_ok inp st c hc (h2 inp (List.mem_cons_self inp rest))
      have hrest := ih st' (fun i hi => h1 i (List.mem_cons_of_mem inp hi))
        (fun i hi => h2 i (List.mem_cons_of_mem inp hi))
      have hstep : (runCycles (inp :: rest) st).1 = ev ++ (runCycles rest st').1 := by
        simp [runCycles, heq]
      have hsc : statusOfCycle inp = (c == 200) := by simp [statusOfCycle, hc]
      rw [hstep, countZipCalls_append, hz, hrest, hl]
      simp [statusesOf, countPrivToPub, hsc]

/-! ## Claim theorems: orchestrator temporal behaviour -/

/-- C3: over a fault-free monitor run (startup status determined, every
capture fetch succeeding), the number of executions of the combined-archive
publish step `send_initial_zip` equals one for a run that starts public plus
one for each observed private-to-public transition; in particular it is
exactly one while the status stays continuously public, and exactly one more
after each private-to-public round trip. -/
theorem initial_zip_once_per_transition (s : StartInput) (c0 : Nat)
    (cycles : List CycleInput) (tr0 : TrackerState)
    (h0 : s.probe = some c0) (hs : startCapOk s = true)
    (h1 : ∀ i ∈ cycles, (i.probe).isSome = true)
    (h2 : ∀ i ∈ cycles, cycleCapOk i = true) :
    countZipCalls (monitorRun s cycles tr0).1 =
      (if c0 == 200 then 1 else 0) + countPrivToPub (c0 == 200) (statusesOf cycles) := by
  obtain ⟨ev, st, hent, hz, _, _, hl, _⟩ := monitor_startup_entered s c0 tr0 h0 hs
  have hsplit : (monitorRun s cycles tr0).1 = ev ++ (runCycles cycles st).1 := by
    simp [monitorRun, hent]
  rw [hsplit, countZipCalls_append, hz, runCycles_zip_count cycles st h1 h2, hl]

/-- Startup input of the C3 witness run: public at startup, all branch-list
fetches failing (which never raises). -/
def zipWitStart : StartInput := ⟨some 200, 0, none, fun _ => none, none⟩

/-- A polling cycle of the C3 witness run. -/
def zipWitCycle (p t : Nat) : CycleInput :=
  ⟨some p, t, none, none, none, fun _ => none, fun _ => false⟩

theorem initial_zip_once_per_transition_witness :
    countZipCalls (monitorRun zipWitStart [zipWitCycle 404 60, zipWitCycle 200 120]
      ⟨[], []⟩).1 = 2 :=
  (initial_zip_once_per_transition zipWitStart 200
    [zipWitCycle 404 60, zipWitCycle 200 120] ⟨[], []⟩ rfl rfl
    (by intro i hi; fin_cases hi <;> rfl)
    (by intro i hi; fin_cases hi <;> rfl)).trans (by decide)

/-- The events of one polling iteration, whether or not it raised. -/
def cycleEvents (r : Except (List Event × MonitorState) (List Event × MonitorState)) :
    List Event :=
  match r with
  | Except.ok p => p.1
  | Except.error p => p.1

/-- The monitor state after one polling iteration, whether or not it raised. -/
def cycleState (r : Except (List Event × MonitorState) (List Event × MonitorState)) :
    MonitorState :=
  match r with
  | Except.ok p => p.2
  | Except.error p => p.2

/-- C4: in a polling cycle whose status probe succeeds and whose capture
fetches succeed, (1) if the status is unchanged and at least 300 seconds have
elapsed since the last notice, exactly one heartbeat is sent and the cooldown
timer resets to the current time (so a second heartbeat needs another 300
seconds); (2) if the status is unchanged and fewer than 300 seconds have
elapsed, no heartbeat is sent and the timer is untouched; (3) if the status
changed, no heartbeat is sent and the timer also resets. -/
theorem heartbeat_cooldown (inp : CycleInput) (st : MonitorState) (c : Nat)
    (hp : inp.probe = some c) (hcap : cycleCapOk inp = true) :
    ((c == 200) = st.last_status → 5 * 60 ≤ inp.now - st.last_sent_time →
      countHeartbeats (cycleEvents (check_repo_status inp st)) = 1 ∧
      (cycleState (check_repo_status inp st)).last_sent_time = inp.now) ∧
    ((c == 200) = st.last_status → inp.now - st.last_sent_time < 5 * 60 →
      countHeartbeats (cycleEvents (check_repo_status inp st)) = 0 ∧
      (cycleState (check_repo_status inp st)).last_sent_time = st.last_sent_time) ∧
    ((c == 200) ≠ st.last_status →
      countHeartbeats (cycleEvents (check_repo_status inp st)) = 0 ∧
      (cycleState (check_repo_status inp st)).last_sent_time = inp.now) := by
  obtain ⟨ev, st', heq, hl, hsent, hz, hhb, hscm⟩ := check_repo_status_ok inp st c hp hcap
  rw [heq]
  refine ⟨fun hEq hT => ⟨?_, ?_⟩, fun hEq hT => ⟨?_, ?_⟩, fun hNe => ⟨?_, ?_⟩⟩
  · simpa [cycleEvents, hEq, hT] using hhb
  · simpa [cycleState, hEq, hT] using hsent
  · have hT' : ¬(5 * 60 ≤ inp.now - st.last_sent_time) := by omega
    simpa [cycleEvents, hEq, hT'] using hhb
  · have hT' : ¬(5 * 60 ≤ inp.now - st.last_sent_time) := by omega
    simpa [cycleState, hEq, hT'] using hsent
  · simpa [cycleEvents, hNe] using hhb
  · simpa [cycleState, hNe] using hsent

/-- Cycle input of the C4 witness: public probe at time 400. -/
def hbWitCycle : CycleInput := ⟨some 200, 400, none, none, none, fun _ => none, fun _ => false⟩

/-- State of the C4 witness: already public, last notice at time 0. -/
def hbWitState : MonitorState := ⟨true, 0, true, ⟨[], []⟩⟩

theorem heartbeat_cooldown_witness :
    countHeartbeats (cycleEvents (check_repo_status hbWitCycle hbWitState)) = 1 ∧
    (cycleState (check_repo_status hbWitCycle hbWitState)).last_sent_time = 400 :=
  (heartbeat_cooldown hbWitCycle hbWitState 200 rfl rfl).1 (by decide) (by decide)

/-- Startup input of the C8 probe run (first probe result, 200). -/
def seqStart : StartInput := ⟨some 200, 0, none, fun _ => none, none⟩

/-- One polling cycle of the C8 probe run. -/
def seqCycle (p t : Nat) : CycleInput :=
  ⟨some p, t, none, none, none, fun _ => none, fun _ => false⟩

/-- The monitor run on the probe sequence [200, 200, 404, 404, 200] with every
transition well inside the 300-second cooldown. -/
def seqRun : List Event :=
  (monitorRun seqStart
    [seqCycle 200 60, seqCycle 404 120, seqCycle 404 180, seqCycle 200 240] ⟨[], []⟩).1

/-- C8 counterexample: on the probe sequence [200, 200, 404, 404, 200] the
orchestrator emits only ONE status-change notification to Telegram (the
"now private" message after the public-to-private transition) — the
private-to-public transition triggers the initial-archive publish step but no
Telegram status-change message — so the claimed count of two is wrong. -/
theorem probe_sequence_not_two_notifications :
    countStatusChangeMsgs seqRun ≠ 2 := by decide

/-- C8 amended: on the probe sequence [200, 200, 404, 404, 200] with each
transition within 300 seconds, the orchestrator emits exactly one status-change
notification to Telegram (the "now private" message), zero heartbeat notices,
and executes the combined-archive publish step twice (once at startup while
public, once after the private-to-public transition). -/
theorem probe_sequence_amended :
    countStatusChangeMsgs seqRun = 1 ∧ countHeartbeats seqRun = 0 ∧
    countZipCalls seqRun = 2 := by decide

/-- C9: when the very first status determination raises (transport fault in
the probe), `monitor` does NOT log and return — the exception unwinds out of
`monitor` with nothing logged, because the `last_status is None` guard (whose
body would log the fatal error) can never fire: `is_repo_public` always
returns a Bool.  The first conjunct evaluates the startup at a faulting probe;
the second shows the log-and-stop outcome is unreachable for every input. -/
theorem startup_fault_unwinds_unlogged :
    monitor_startup ⟨none, 0, none, fun _ => none, none⟩ ⟨[], []⟩ =
      StartResult.raised [] ∧
    (∀ (s : StartInput) (tr : TrackerState) (ev : List Event),
      monitor_startup s tr ≠ StartResult.fatalLogged ev) := by
  refine ⟨rfl, ?_⟩
  intro s tr ev h
  rcases hs : s.probe with _ | code
  · simp only [monitor_startup, hs] at h
    exact StartResult.noConfusion h
  · simp only [monitor_startup, hs] at h
    rcases hc2 : capture_initial_state s.capBranches s.fileList tr with tr1 | tr1 <;>
      rw [hc2] at h
    · exact StartResult.noConfusion h
    · by_cases hb : code = 200 <;> simp [hb] at h

end Aeonn
